import Mathlib

/-!
Verification development for the goodreads-summariser pipeline
(`find_review` → `review_cleaning` → `extract_content`, with the LLM call
as an external collaborator).  The definitions below are a shallow
embedding of the source notebook: each Python / polars operation the
claims depend on is rendered as an executable Lean function over
`String` / `List Char`, machine integers as `Nat` with the explicit
Int32 bound where the source casts, and fallible casts as `Option`.
-/

namespace GoodreadsSummariser

/-! ### String primitives

The polars expressions in the source use `str.replace` (which, with the
default `n=1`, replaces only the first, leftmost occurrence of the
pattern), `str.extract` (leftmost regex match, capture group 1) and
strict casts to `Int32`.  The patterns used are either literal strings
or the two concrete regexes modelled further below. -/

/-- Numeric value of a list of ASCII digit characters, most significant
first (the usual decimal reading, as Rust's integer parsing does). -/
def digitsVal (l : List Char) : Nat :=
  l.foldl (fun n c => 10 * n + (c.toNat - 48)) 0

/-- Strict polars cast `Utf8 → Int32` on the inputs this pipeline can
produce (non-negative counts): succeeds exactly on a non-empty all-digit
string whose value fits in `Int32`; anything else raises, modelled as
`none`. -/
def castNatL (l : List Char) : Option Nat :=
  if l.isEmpty then none
  else if l.all Char.isDigit then
    if digitsVal l < 2147483648 then some (digitsVal l) else none
  else none

/-- Replace the first (leftmost) occurrence of the literal pattern
`pat` by `rep`; the string is unchanged when `pat` does not occur.
This is polars `str.replace(pat, rep)` with its default `n=1` for the
literal-only patterns the source uses. -/
def replaceFirstL (pat rep : List Char) : List Char → List Char
  | [] => if pat.isEmpty then rep else []
  | a :: l =>
    if pat.isPrefixOf (a :: l) then rep ++ (a :: l).drop pat.length
    else a :: replaceFirstL pat rep l

/-- Substring occurrence test on character lists: does `pat` occur
contiguously somewhere in the list? -/
def containsSubL (pat : List Char) : List Char → Bool
  | [] => pat.isEmpty
  | a :: l => pat.isPrefixOf (a :: l) || containsSubL pat l

/-- Python's `pat in hay` substring test. -/
def containsStr (hay pat : String) : Bool :=
  containsSubL pat.data hay.data

/-- Consume the optional fractional part `(?:\.\d+)?` at the head of
`r1`: the number of characters consumed (0 when the group matches
empty) together with the rest of the input. -/
def kTailAfterNum (r1 : List Char) : Nat × List Char :=
  match r1 with
  | '.' :: t =>
    let fs := t.takeWhile Char.isDigit
    if fs.isEmpty then (0, r1) else (fs.length + 1, t.drop fs.length)
  | _ => (0, r1)

/-- Length of a match of the regex `(\d+(?:\.\d+)?)[kK]\s+followers`
anchored at the head of `l`, or `none` when the head does not match.
Greedy maximal munch is exact here: every quantified piece is followed
by a piece that cannot start with the quantified character class. -/
def matchKLen (l : List Char) : Option Nat :=
  let ds := l.takeWhile Char.isDigit
  if ds.isEmpty then none
  else
    let fr := kTailAfterNum (l.drop ds.length)
    match fr.2 with
    | [] => none
    | k :: r3 =>
      if k = 'k' ∨ k = 'K' then
        let ws := r3.takeWhile Char.isWhitespace
        if ws.isEmpty then none
        else if "followers".data.isPrefixOf (r3.drop ws.length) then
          some (ds.length + fr.1 + 1 + ws.length + 9)
        else none
      else none

/-- Replace the leftmost occurrence of `(\d+(?:\.\d+)?)[kK]\s+followers`
by `rep` (polars `str.replace` with this regex, default `n=1`). -/
def replaceKL (rep : List Char) : List Char → List Char
  | [] => []
  | a :: l =>
    match matchKLen (a :: l) with
    | some n => rep ++ (a :: l).drop n
    | none => a :: replaceKL rep l

/-- Leftmost match of the regex `(\d+(?:\.\d+)?)`, i.e. the first
maximal run of digits together with an optional dot-plus-digits tail;
this is polars `str.extract(r'(\d+(?:\.\d+)?)', group_index=1)`. -/
def extractNumL : List Char → Option (List Char)
  | [] => none
  | a :: l =>
    if Char.isDigit a then
      let ds := (a :: l).takeWhile Char.isDigit
      match (a :: l).drop ds.length with
      | '.' :: t =>
        let fs := t.takeWhile Char.isDigit
        if fs.isEmpty then some ds else some (ds ++ '.' :: fs)
      | _ => some ds
    else extractNumL l

/-- Value of `number * 1000` cast to an integer, for a decimal literal
(digits with an optional fractional part) as matched by `extractNumL`.
The source computes `cast(pl.Float64) * 1000` followed by a truncating
`cast(pl.Int32)`; this is modelled exactly over the rationals with
truncating division.  The model agrees with the binary64 evaluation
whenever the rounded binary64 product coincides with the exact product
(true of every input any theorem below evaluates, e.g. `1.5 → 1500`,
`1.2 → 1200`, integers); inputs where binary64 rounding strays are not
evaluated by any theorem in this file. -/
def kTimes1000 (nc : List Char) : Nat :=
  let ip := nc.takeWhile (fun c => c ≠ '.')
  let fp := (nc.drop ip.length).drop 1
  (digitsVal ip * 10 ^ fp.length + digitsVal fp) * 1000 / 10 ^ fp.length

/-- Match of the regex `Rating (\d+) out of` anchored at the head of
`l`: returns the digit group. -/
def ratingAt (l : List Char) : Option (List Char) :=
  if "Rating ".data.isPrefixOf l then
    let r := l.drop 7
    let ds := r.takeWhile Char.isDigit
    if ds.isEmpty then none
    else if " out of".data.isPrefixOf (r.drop ds.length) then some ds
    else none
  else none

/-- Leftmost match of `Rating (\d+) out of` anywhere in `l`, returning
capture group 1 (polars `str.extract`, `none` when there is no match). -/
def extractRatingL : List Char → Option (List Char)
  | [] => none
  | a :: l =>
    match ratingAt (a :: l) with
    | some ds => some ds
    | none => extractRatingL l

/-! ### Review Extractor (`find_review`)

The HTML collaborator (BeautifulSoup) is abstracted away: a page is
modelled by exactly the pieces of structure `find_review` touches — the
title and author texts, and the list of `ReviewsList` containers, each
being its list of `ReviewCard` articles.  Each card carries the
already-text-extracted values `find_review` reads from it. -/

/-- The `span` with class `RatingStars RatingStars__small`, carrying
its `aria-label` attribute text. -/
structure RatingStars where
  ariaLabel : String
deriving DecidableEq

/-- The `div` with class `ShelfStatus`; the rating-stars span inside it
may be absent. -/
structure ShelfStatus where
  ratingStars : Option RatingStars
deriving DecidableEq

/-- One `article` with class `ReviewCard`: the reviewer name and
profile link (from the profile-info anchor), the stripped texts of the
spans inside `ReviewerProfile__meta`, the optional `ShelfStatus`
element, and the stripped text of the `Formatted` content span. -/
structure ReviewCard where
  profileName : String
  profileLink : String
  metaSpans : List String
  shelfStatus : Option ShelfStatus
  content : String
deriving DecidableEq

/-- A parsed page: title text, author text, and the `ReviewsList`
containers in document order, each given by its review cards. -/
structure Page where
  title : String
  author : String
  reviewLists : List (List ReviewCard)
deriving DecidableEq

/-- The four mutable variables of the span-classification loop, at
their initial values `check_author = False`, `books_amount = None`,
`reviews_amount = 'Not Found'`, `followers_amount = 'Not Found'`. -/
structure ProfileMeta where
  checkAuthor : Option String
  books : Option String
  reviewsAmount : String
  followersAmount : String
deriving DecidableEq

/-- Initial values of the classification loop variables. -/
def initMeta : ProfileMeta :=
  { checkAuthor := none, books := none,
    reviewsAmount := "Not Found", followersAmount := "Not Found" }

/-- One iteration of the span loop in `find_review`: an `if`/`elif`
chain testing, in order, whether the span text contains `books`,
`reviews`, `followers`, `Author`; only the first matching branch
assigns. -/
def classifySpan (acc : ProfileMeta) (t : String) : ProfileMeta :=
  if containsStr t "books" then { acc with books := some t }
  else if containsStr t "reviews" then { acc with reviewsAmount := t }
  else if containsStr t "followers" then { acc with followersAmount := t }
  else if containsStr t "Author" then { acc with checkAuthor := some t }
  else acc

/-- The whole span loop over the profile-meta spans, in order. -/
def classifySpans (spans : List String) : ProfileMeta :=
  spans.foldl classifySpan initMeta

/-- One extracted review record (the dict appended to `all_reviews`,
with the nested profile dict flattened the way `unnest` later does). -/
structure RawReview where
  index : Nat
  name : String
  linkProfile : String
  anAuthor : Bool
  books : Option String
  reviewsAmount : String
  followersAmount : String
  rating : String
  content : String
deriving DecidableEq

/-- The rating lookup with its bare `try`/`except`: when the
`ShelfStatus` div is absent (`.find` on `None` raises) or the rating
span is absent (`.get` on `None` raises), any such failure yields the
sentinel; otherwise the span's `aria-label` is read. -/
def findRating (c : ReviewCard) : String :=
  match c.shelfStatus with
  | none => "No Rating Given"
  | some s =>
    match s.ratingStars with
    | none => "No Rating Given"
    | some r => r.ariaLabel

/-- Build the record for one review card at 1-based position `idx`
(the loop body of `find_review`); `bool(check_author)` is truthiness of
the assigned span text. -/
def mkRaw (idx : Nat) (c : ReviewCard) : RawReview :=
  let m := classifySpans c.metaSpans
  { index := idx
    name := c.profileName
    linkProfile := c.profileLink
    anAuthor := match m.checkAuthor with
                | none => false
                | some s => !s.isEmpty
    books := m.books
    reviewsAmount := m.reviewsAmount
    followersAmount := m.followersAmount
    rating := findRating c
    content := c.content }

/-- The `for idx, i in enumerate(articles)` loop: build the records in
document order, indices `idx + 1` counting up from the start value. -/
def extractReviews : Nat → List ReviewCard → List RawReview
  | _, [] => []
  | i, c :: cs => mkRaw i c :: extractReviews (i + 1) cs

/-- Pipeline error taxonomy (§7 of the specification): transport
failure, the missing-second-review-list failure (an `IndexError` at
`reviews_list[1]` in the source), and the strict numeric cast failure
in the normalizer. -/
inductive PErr where
  | network
  | extractionReviewList
  | numericParse
deriving DecidableEq

/-- Parsing and selection done by `find_review` after the fetch:
select `reviews_list[1]` (an error when fewer than two `ReviewsList`
containers exist) and extract all its review cards with 1-based
indices. -/
def extractPage (p : Page) : Except PErr (String × String × List RawReview) :=
  match p.reviewLists[1]? with
  | none => Except.error PErr.extractionReviewList
  | some cards => Except.ok (p.title, p.author, extractReviews 1 cards)

/-- What `requests.get(url, headers=headers)` produced for the given
URL: either the request could not complete (the exception propagates —
nothing in `find_review` catches it), or a response with some HTTP
status code and a parseable body. -/
inductive FetchOutcome where
  | fail
  | response (status : Nat) (page : Page)
deriving DecidableEq

/-- The whole of `find_review`: fetch, then parse and extract.  The
source never reads `response.status_code` and never calls
`raise_for_status`, so the status argument is ignored and the body is
extracted whatever the status was. -/
def find_review : FetchOutcome → Except PErr (String × String × List RawReview)
  | FetchOutcome.fail => Except.error PErr.network
  | FetchOutcome.response _ p => extractPage p

/-! ### Review Normalizer (`review_cleaning`) -/

/-- The `Reviews Amount` column expression: replace the first
occurrence each of `reviews`, `review`, a space, a comma, and
`NotFound` (by `0`), then strict-cast to `Int32`. -/
def reviewsClean (s : String) : Option Nat :=
  let t1 := replaceFirstL "reviews".data [] s.data
  let t2 := replaceFirstL "review".data [] t1
  let t3 := replaceFirstL [' '] [] t2
  let t4 := replaceFirstL [','] [] t3
  let t5 := replaceFirstL "NotFound".data "0".data t4
  castNatL t5

/-- The `Followers Amount` column expression: replace the leftmost
`(\d+(?:\.\d+)?)[kK]\s+followers` match by the stringified value of the
first extracted number times 1000 (computed from the original column),
then replace the first occurrence each of `followers`, `follower`, a
space and a comma, then strict-cast to `Int32`.  A `[kK]` match always
begins with a digit, so `extractNumL` is `some` whenever `rep` is used;
the `[]` default is dead code. -/
def followersClean (s : String) : Option Nat :=
  let rep : List Char :=
    match extractNumL s.data with
    | some nc => (Nat.repr (kTimes1000 nc)).data
    | none => []
  let t1 := replaceKL rep s.data
  let t2 := replaceFirstL "followers".data [] t1
  let t3 := replaceFirstL "follower".data [] t2
  let t4 := replaceFirstL [' '] [] t3
  let t5 := replaceFirstL [','] [] t4
  castNatL t5

/-- The `Rating` column expression `str.extract(r'Rating (\d+) out
of').cast(pl.Int32)`: no match extracts null and the cast passes null
through (`some none`); a match casts its digits strictly (`none` would
be an aborting cast failure, impossible for the digit counts here but
kept for fidelity to the strict cast). -/
def ratingClean (s : String) : Option (Option Nat) :=
  match extractRatingL s.data with
  | none => some none
  | some ds => if digitsVal ds < 2147483648 then some (some (digitsVal ds)) else none

/-- One row of the cleaned frame: the columns kept after
`unnest('Profile Info')` and `drop('Link Profile', 'Index', 'Books',
'An Author')`, with the three rewritten columns typed. -/
structure CleanedRow where
  name : String
  reviewsCount : Nat
  followersCount : Nat
  rating : Option Nat
  content : String
deriving DecidableEq

/-- Clean a single row; `none` when any strict cast in the
`with_columns` expressions fails on this row. -/
def cleanRow (r : RawReview) : Option CleanedRow := do
  let rc ← reviewsClean r.reviewsAmount
  let fc ← followersClean r.followersAmount
  let rt ← ratingClean r.rating
  pure { name := r.name, reviewsCount := rc, followersCount := fc,
         rating := rt, content := r.content }

/-- Clean every row; polars evaluates the column expressions over the
whole frame, so a cast failure on any row fails the whole step. -/
def cleanRows : List RawReview → Option (List CleanedRow)
  | [] => some []
  | r :: rs => do
    let c ← cleanRow r
    let cs ← cleanRows rs
    pure (c :: cs)

/-- The whole of `review_cleaning`: a failing cast anywhere raises
(`NumericParseError` in the specification's taxonomy) and aborts the
stage; otherwise the cleaned rows are returned in order. -/
def review_cleaning (rs : List RawReview) : Except PErr (List CleanedRow) :=
  match cleanRows rs with
  | some rows => Except.ok rows
  | none => Except.error PErr.numericParse

/-! ### Content Aggregator (`extract_content`) -/

/-- Join a list of strings with a newline between consecutive elements
(polars `str.join` with separator, over the `Content` column in row
order; zero rows join to the empty string). -/
def joinNl : List String → String
  | [] => ""
  | [a] => a
  | a :: b :: r => a ++ "\n" ++ joinNl (b :: r)

/-- The whole of `extract_content`: join the `Content` column with a
newline separator, preserving row order. -/
def extract_content (rows : List CleanedRow) : String :=
  joinNl (rows.map CleanedRow.content)

/-- The sequential pipeline up to the text handed to the summarizer
(`llm_summarise` is an external collaborator consuming this value): an
error in any stage short-circuits every later stage. -/
def run_pipeline (f : FetchOutcome) : Except PErr String := do
  let (_, _, rs) ← find_review f
  let rows ← review_cleaning rs
  pure (extract_content rows)

/-! ### Spec-worded reference definitions

The following definitions follow the words of the specification (not
the source); they exist only to be compared against the source-derived
definitions above where a claim asserts the two coincide. -/

/-- Remove every occurrence of the character `c`. -/
def stripAllChar (c : Char) (l : List Char) : List Char :=
  l.filter (fun x => !(x == c))

/-- Spec-worded C4 derivation: strip the literal words
`reviews`/`review`, strip ALL spaces and commas, map the sentinel
`Not Found` to 0, cast to an integer. -/
def reviewsCleanSpec (s : String) : Option Nat :=
  if s = "Not Found" then some 0
  else
    let t1 := replaceFirstL "reviews".data [] s.data
    let t2 := replaceFirstL "review".data [] t1
    castNatL (stripAllChar ',' (stripAllChar ' ' t2))

/-- Does the `(\d+(?:\.\d+)?)[kK]\s+followers` pattern occur anywhere? -/
def hasKPattern : List Char → Bool
  | [] => false
  | a :: l => (matchKLen (a :: l)).isSome || hasKPattern l

/-- Exact `round(number * 1000)` (round half away from zero) for a
decimal literal as matched by `extractNumL`. -/
def kRound1000 (nc : List Char) : Nat :=
  let ip := nc.takeWhile (fun c => c ≠ '.')
  let fp := (nc.drop ip.length).drop 1
  (2 * (digitsVal ip * 10 ^ fp.length + digitsVal fp) * 1000 + 10 ^ fp.length)
    / (2 * 10 ^ fp.length)

/-- Spec-worded C1 derivation: when the text matches
`<number>[kK] followers`, `round(number * 1000)`; otherwise strip the
words `followers`/`follower` and ALL spaces and commas, then cast. -/
def followersCleanSpec (s : String) : Option Nat :=
  if hasKPattern s.data then (extractNumL s.data).map kRound1000
  else
    let t1 := replaceFirstL "followers".data [] s.data
    let t2 := replaceFirstL "follower".data [] t1
    castNatL (stripAllChar ',' (stripAllChar ' ' t2))

/-- Spec-worded C2 classification: each span is checked against all
four substring patterns and every matching branch assigns, the later
branches taking effect over the earlier ones. -/
def classifySpanSpec (acc : ProfileMeta) (t : String) : ProfileMeta :=
  let a1 := if containsStr t "books" then { acc with books := some t } else acc
  let a2 := if containsStr t "reviews" then { a1 with reviewsAmount := t } else a1
  let a3 := if containsStr t "followers" then { a2 with followersAmount := t } else a2
  if containsStr t "Author" then { a3 with checkAuthor := some t } else a3

/-- Spec-worded C2 classification over the whole span list. -/
def classifySpansSpec (spans : List String) : ProfileMeta :=
  spans.foldl classifySpanSpec initMeta

/-- Split a character list at every newline character (the inverse
reading used by the round-trip claim about the aggregator). -/
def splitNlL : List Char → List (List Char)
  | [] => [[]]
  | c :: l =>
    if c = '\n' then [] :: splitNlL l
    else
      match splitNlL l with
      | [] => [[c]]
      | r :: rs => (c :: r) :: rs

/-- String-level split on the newline character. -/
def splitNl (s : String) : List String :=
  (splitNlL s.data).map String.mk

/-! ### Sample data (the specification's §8 end-to-end scenario) -/

/-- Card 1 of the §8 scenario: Alice, three meta spans, a 5-star
rating, content `Loved the pacing.`. -/
def cardAlice : ReviewCard :=
  { profileName := "Alice"
    profileLink := "/user/alice"
    metaSpans := ["102 books", "5 reviews", "1.2k followers"]
    shelfStatus := some { ratingStars := some { ariaLabel := "Rating 5 out of 5" } }
    content := "Loved the pacing." }

/-- Card 2 of the §8 scenario: Bob, a lone followers span, no rating
control, content `Characters felt flat.`. -/
def cardBob : ReviewCard :=
  { profileName := "Bob"
    profileLink := "/user/bob"
    metaSpans := ["3 followers"]
    shelfStatus := none
    content := "Characters felt flat." }

/-- A well-formed page: the second `ReviewsList` container holds the
two scenario cards (the first container is the skipped one). -/
def samplePage : Page :=
  { title := "Book", author := "Author A", reviewLists := [[], [cardAlice, cardBob]] }

/-- A malformed page with a single `ReviewsList` container. -/
def onlyOneListPage : Page :=
  { title := "Book", author := "Author A", reviewLists := [[cardAlice]] }

/-- A raw review whose followers field carries the `Not Found`
sentinel (as the extractor produces when no followers span exists). -/
def rawNF : RawReview :=
  { index := 1, name := "Bob", linkProfile := "/user/bob", anAuthor := false,
    books := none, reviewsAmount := "4 reviews", followersAmount := "Not Found",
    rating := "No Rating Given", content := "Characters felt flat." }

/-! ### Helper lemmas about the string primitives -/

theorem dataOfMk (l : List Char) : (String.mk l).data = l := rfl

theorem mkOfData (s : String) : String.mk s.data = s := rfl

theorem data_append (a b : String) : (a ++ b).data = a.data ++ b.data := rfl

theorem replaceFirstL_cons_ne (pat rep : List Char) (p : Char)
    (hp : pat.head? = some p) (a : Char) (l : List Char) (h : a ≠ p) :
    replaceFirstL pat rep (a :: l) = a :: replaceFirstL pat rep l := by
  cases pat with
  | nil => cases hp
  | cons q qs =>
    rw [List.head?_cons] at hp
    injection hp with hq
    subst hq
    have hpa : (q == a) = false := beq_eq_false_iff_ne.mpr fun hh => h hh.symm
    have hcond : (q :: qs).isPrefixOf (a :: l) = false := by
      show (q == a && qs.isPrefixOf l) = false
      rw [hpa, Bool.false_and]
    simp [replaceFirstL, hcond]

theorem replaceFirstL_in_tail (pat rep l1 X : List Char) (p : Char)
    (hp : pat.head? = some p) (h : ∀ c ∈ l1, c ≠ p) :
    replaceFirstL pat rep (l1 ++ X) = l1 ++ replaceFirstL pat rep X := by
  induction l1 with
  | nil => simp
  | cons a t ih =>
    rw [List.cons_append,
      replaceFirstL_cons_ne pat rep p hp a (t ++ X) (h a (by simp)),
      ih (fun c hc => h c (by simp [hc])), List.cons_append]

theorem replaceFirstL_all_ne (pat rep l : List Char) (p : Char)
    (hp : pat.head? = some p) (h : ∀ c ∈ l, c ≠ p) :
    replaceFirstL pat rep l = l := by
  have hnil : replaceFirstL pat rep [] = [] := by
    cases pat with
    | nil => cases hp
    | cons q qs => simp [replaceFirstL]
  have := replaceFirstL_in_tail pat rep l [] p hp h
  simpa [hnil] using this

theorem replaceFirstL_singleton_match (p : Char) (rep l : List Char) :
    replaceFirstL [p] rep (p :: l) = rep ++ l := by
  simp [replaceFirstL, List.isPrefixOf]

theorem ne_of_digit {c x : Char} (hc : c.isDigit = true) (hx : x.isDigit = false) :
    c ≠ x := by
  intro h
  subst h
  rw [hc] at hx
  exact Bool.noConfusion hx

theorem all_digits_ne {ds : List Char} (hall : ds.all Char.isDigit = true)
    (x : Char) (hx : Char.isDigit x = false) : ∀ c ∈ ds, c ≠ x :=
  fun c hc => ne_of_digit (List.all_eq_true.mp hall c hc) hx

theorem not_mem_of_digits {ds : List Char} (hall : ds.all Char.isDigit = true)
    (x : Char) (hx : Char.isDigit x = false) : x ∉ ds :=
  fun hm => all_digits_ne hall x hx x hm rfl

theorem castNatL_of_digits {ds : List Char} (hne : ds ≠ [])
    (hall : ds.all Char.isDigit = true) (hlt : digitsVal ds < 2147483648) :
    castNatL ds = some (digitsVal ds) := by
  have hie : ds.isEmpty = false := by
    cases ds with
    | nil => exact absurd rfl hne
    | cons a t => rfl
  simp [castNatL, hie, hall, hlt]

theorem kTailAfterNum_subset (r1 : List Char) : (kTailAfterNum r1).2 ⊆ r1 := by
  unfold kTailAfterNum
  split
  · rename_i t
    show (if (t.takeWhile Char.isDigit).isEmpty = true then ((0 : Nat), '.' :: t)
        else ((t.takeWhile Char.isDigit).length + 1,
          t.drop (t.takeWhile Char.isDigit).length)).2 ⊆ '.' :: t
    by_cases hfs : (t.takeWhile Char.isDigit).isEmpty = true
    · rw [if_pos hfs]
      exact fun x hx => hx
    · rw [if_neg hfs]
      intro x hx
      exact List.mem_cons_of_mem _ (List.mem_of_mem_drop hx)
  · exact fun x hx => hx

theorem matchKLen_none_of_no_k (l : List Char) (hk : 'k' ∉ l) (hK : 'K' ∉ l) :
    matchKLen l = none := by
  simp only [matchKLen]
  split
  · rfl
  · split
    · rfl
    · rename_i k r3 heq
      have hkmem : k ∈ l := by
        have h1 : k ∈ (kTailAfterNum (l.drop (l.takeWhile Char.isDigit).length)).2 := by
          rw [heq]; simp
        have h2 := kTailAfterNum_subset (l.drop (l.takeWhile Char.isDigit).length) h1
        exact List.mem_of_mem_drop h2
      refine if_neg ?_
      rintro (rfl | rfl)
      · exact hk hkmem
      · exact hK hkmem

theorem replaceKL_no_k (rep l : List Char) (hk : 'k' ∉ l) (hK : 'K' ∉ l) :
    replaceKL rep l = l := by
  induction l with
  | nil => rfl
  | cons a t ih =>
    have hm := matchKLen_none_of_no_k (a :: t) hk hK
    have iht := ih (fun h => hk (by simp [h])) (fun h => hK (by simp [h]))
    simp [replaceKL, hm, iht]

/-! ### Helper lemmas about the extractor -/

theorem extractReviews_length (i : Nat) (cs : List ReviewCard) :
    (extractReviews i cs).length = cs.length := by
  induction cs generalizing i with
  | nil => rfl
  | cons c t ih => simp [extractReviews, ih]

theorem extractReviews_map_index (i : Nat) (cs : List ReviewCard) :
    (extractReviews i cs).map RawReview.index = List.range' i cs.length := by
  induction cs generalizing i with
  | nil => simp [extractReviews]
  | cons c t ih => simp [extractReviews, List.range'_succ, ih, mkRaw]

/-! ### Helper lemmas about the normalizer -/

theorem cleanRow_none_of_followers {r : RawReview}
    (hf : followersClean r.followersAmount = none) : cleanRow r = none := by
  cases hrev : reviewsClean r.reviewsAmount <;> simp [cleanRow, hrev, hf]

theorem cleanRows_none_of_mem {rs : List RawReview} {r : RawReview} (hmem : r ∈ rs)
    (hf : followersClean r.followersAmount = none) : cleanRows rs = none := by
  induction rs with
  | nil => cases hmem
  | cons a t ih =>
    rcases List.mem_cons.mp hmem with h | h
    · subst h
      simp [cleanRows, cleanRow_none_of_followers hf]
    · cases hca : cleanRow a <;> simp [cleanRows, hca, ih h]

/-! ### Helper lemmas about the aggregator round trip -/

theorem splitNlL_no_newline (l : List Char) (h : '\n' ∉ l) : splitNlL l = [l] := by
  induction l with
  | nil => rfl
  | cons c t ih =>
    have hc : ¬c = '\n' := fun hh => h (by simp [hh])
    have ht : '\n' ∉ t := fun hh => h (by simp [hh])
    simp [splitNlL, hc, ih ht]

theorem splitNlL_append (l1 l2 : List Char) (h : '\n' ∉ l1) :
    splitNlL (l1 ++ '\n' :: l2) = l1 :: splitNlL l2 := by
  induction l1 with
  | nil => simp [splitNlL]
  | cons c t ih =>
    have hc : ¬c = '\n' := fun hh => h (by simp [hh])
    have ht : '\n' ∉ t := fun hh => h (by simp [hh])
    simp [splitNlL, hc, ih ht]

theorem splitNl_joinNl (ls : List String) (hne : ls ≠ [])
    (h : ∀ s ∈ ls, '\n' ∉ s.data) : splitNl (joinNl ls) = ls := by
  induction ls with
  | nil => exact absurd rfl hne
  | cons a t ih =>
    cases t with
    | nil =>
      simp [joinNl, splitNl, splitNlL_no_newline a.data (h a (by simp)), mkOfData]
    | cons b r =>
      have hdata : (a ++ "\n" ++ joinNl (b :: r)).data
          = a.data ++ '\n' :: (joinNl (b :: r)).data := by
        simp [data_append]
      have iht := ih (by simp) (fun s hs => h s (by simp [hs]))
      simp only [joinNl, splitNl, hdata,
        splitNlL_append a.data (joinNl (b :: r)).data (h a (by simp)),
        List.map_cons, mkOfData]
      rw [show (splitNlL (joinNl (b :: r)).data).map String.mk = splitNl (joinNl (b :: r)) from rfl,
        iht]

/-! ### Evaluation of the two count cleaners on the canonical shapes
`<digits> reviews`, `<digits> review`, `<digits>,<digits> reviews` (and
the followers counterparts), for arbitrary digit strings. -/

theorem reviewsClean_plain_rs (ds : List Char) (hne : ds ≠ [])
    (hall : ds.all Char.isDigit = true) (hlt : digitsVal ds < 2147483648) :
    reviewsClean (String.mk (ds ++ " reviews".data)) = some (digitsVal ds) := by
  have hr := all_digits_ne hall 'r' (by decide)
  have hsp := all_digits_ne hall ' ' (by decide)
  have hcm := all_digits_ne hall ',' (by decide)
  have hN := all_digits_ne hall 'N' (by decide)
  have e1 : replaceFirstL "reviews".data [] " reviews".data = [' '] := by decide
  have e2 : replaceFirstL "review".data [] [' '] = [' '] := by decide
  have e3 : replaceFirstL [' '] [] [' '] = [] := by decide
  have e4 : replaceFirstL [','] ([] : List Char) [] = [] := by decide
  have e5 : replaceFirstL "NotFound".data "0".data [] = [] := by decide
  simp only [reviewsClean, dataOfMk]
  rw [replaceFirstL_in_tail "reviews".data [] ds " reviews".data 'r' (by decide) hr, e1,
    replaceFirstL_in_tail "review".data [] ds [' '] 'r' (by decide) hr, e2,
    replaceFirstL_in_tail [' '] [] ds [' '] ' ' (by decide) hsp, e3,
    replaceFirstL_in_tail [','] [] ds [] ',' (by decide) hcm, e4,
    replaceFirstL_in_tail "NotFound".data "0".data ds [] 'N' (by decide) hN, e5,
    List.append_nil]
  exact castNatL_of_digits hne hall hlt

theorem reviewsClean_plain_r (ds : List Char) (hne : ds ≠ [])
    (hall : ds.all Char.isDigit = true) (hlt : digitsVal ds < 2147483648) :
    reviewsClean (String.mk (ds ++ " review".data)) = some (digitsVal ds) := by
  have hr := all_digits_ne hall 'r' (by decide)
  have hsp := all_digits_ne hall ' ' (by decide)
  have hcm := all_digits_ne hall ',' (by decide)
  have hN := all_digits_ne hall 'N' (by decide)
  have f1 : replaceFirstL "reviews".data [] " review".data = " review".data := by decide
  have f2 : replaceFirstL "review".data [] " review".data = [' '] := by decide
  have e3 : replaceFirstL [' '] [] [' '] = [] := by decide
  have e4 : replaceFirstL [','] ([] : List Char) [] = [] := by decide
  have e5 : replaceFirstL "NotFound".data "0".data [] = [] := by decide
  simp only [reviewsClean, dataOfMk]
  rw [replaceFirstL_in_tail "reviews".data [] ds " review".data 'r' (by decide) hr, f1,
    replaceFirstL_in_tail "review".data [] ds " review".data 'r' (by decide) hr, f2,
    replaceFirstL_in_tail [' '] [] ds [' '] ' ' (by decide) hsp, e3,
    replaceFirstL_in_tail [','] [] ds [] ',' (by decide) hcm, e4,
    replaceFirstL_in_tail "NotFound".data "0".data ds [] 'N' (by decide) hN, e5,
    List.append_nil]
  exact castNatL_of_digits hne hall hlt

theorem reviewsClean_comma (ds1 ds2 : List Char) (h1 : ds1 ≠ [])
    (ha1 : ds1.all Char.isDigit = true) (ha2 : ds2.all Char.isDigit = true)
    (hlt : digitsVal (ds1 ++ ds2) < 2147483648) :
    reviewsClean (String.mk (ds1 ++ ',' :: (ds2 ++ " reviews".data)))
      = some (digitsVal (ds1 ++ ds2)) := by
  have hr1 := all_digits_ne ha1 'r' (by decide)
  have hr2 := all_digits_ne ha2 'r' (by decide)
  have hsp1 := all_digits_ne ha1 ' ' (by decide)
  have hsp2 := all_digits_ne ha2 ' ' (by decide)
  have hcm1 := all_digits_ne ha1 ',' (by decide)
  have e1 : replaceFirstL "reviews".data [] " reviews".data = [' '] := by decide
  have e2 : replaceFirstL "review".data [] [' '] = [' '] := by decide
  have e3 : replaceFirstL [' '] [] [' '] = [] := by decide
  have hcat : (ds1 ++ ds2).all Char.isDigit = true := by
    simp only [List.all_append, ha1, ha2, Bool.and_self]
  have hN : ∀ c ∈ ds1 ++ ds2, c ≠ 'N' := all_digits_ne hcat 'N' (by decide)
  simp only [reviewsClean, dataOfMk]
  rw [replaceFirstL_in_tail "reviews".data [] ds1 (',' :: (ds2 ++ " reviews".data)) 'r'
      (by decide) hr1,
    replaceFirstL_cons_ne "reviews".data [] 'r' (by decide) ',' (ds2 ++ " reviews".data)
      (by decide),
    replaceFirstL_in_tail "reviews".data [] ds2 " reviews".data 'r' (by decide) hr2, e1,
    replaceFirstL_in_tail "review".data [] ds1 (',' :: (ds2 ++ [' '])) 'r' (by decide) hr1,
    replaceFirstL_cons_ne "review".data [] 'r' (by decide) ',' (ds2 ++ [' ']) (by decide),
    replaceFirstL_in_tail "review".data [] ds2 [' '] 'r' (by decide) hr2, e2,
    replaceFirstL_in_tail [' '] [] ds1 (',' :: (ds2 ++ [' '])) ' ' (by decide) hsp1,
    replaceFirstL_cons_ne [' '] [] ' ' (by decide) ',' (ds2 ++ [' ']) (by decide),
    replaceFirstL_in_tail [' '] [] ds2 [' '] ' ' (by decide) hsp2, e3,
    replaceFirstL_in_tail [','] [] ds1 (',' :: (ds2 ++ [])) ',' (by decide) hcm1,
    replaceFirstL_singleton_match ',' [] (ds2 ++ []),
    List.append_nil, List.nil_append,
    replaceFirstL_all_ne "NotFound".data "0".data (ds1 ++ ds2) 'N' (by decide) hN]
  exact castNatL_of_digits (by simp [h1]) hcat hlt

theorem followersClean_plain_fs (ds : List Char) (hne : ds ≠ [])
    (hall : ds.all Char.isDigit = true) (hlt : digitsVal ds < 2147483648) :
    followersClean (String.mk (ds ++ " followers".data)) = some (digitsVal ds) := by
  have hf := all_digits_ne hall 'f' (by decide)
  have hsp := all_digits_ne hall ' ' (by decide)
  have hcm := all_digits_ne hall ',' (by decide)
  have hk : 'k' ∉ ds ++ " followers".data := by
    intro hm
    rcases List.mem_append.mp hm with h | h
    · exact not_mem_of_digits hall 'k' (by decide) h
    · revert h; decide
  have hK : 'K' ∉ ds ++ " followers".data := by
    intro hm
    rcases List.mem_append.mp hm with h | h
    · exact not_mem_of_digits hall 'K' (by decide) h
    · revert h; decide
  have g1 : replaceFirstL "followers".data [] " followers".data = [' '] := by decide
  have g2 : replaceFirstL "follower".data [] [' '] = [' '] := by decide
  have e3 : replaceFirstL [' '] [] [' '] = [] := by decide
  have e4 : replaceFirstL [','] ([] : List Char) [] = [] := by decide
  simp only [followersClean, dataOfMk]
  rw [replaceKL_no_k _ _ hk hK,
    replaceFirstL_in_tail "followers".data [] ds " followers".data 'f' (by decide) hf, g1,
    replaceFirstL_in_tail "follower".data [] ds [' '] 'f' (by decide) hf, g2,
    replaceFirstL_in_tail [' '] [] ds [' '] ' ' (by decide) hsp, e3,
    replaceFirstL_in_tail [','] [] ds [] ',' (by decide) hcm, e4,
    List.append_nil]
  exact castNatL_of_digits hne hall hlt

theorem followersClean_plain_f (ds : List Char) (hne : ds ≠ [])
    (hall : ds.all Char.isDigit = true) (hlt : digitsVal ds < 2147483648) :
    followersClean (String.mk (ds ++ " follower".data)) = some (digitsVal ds) := by
  have hf := all_digits_ne hall 'f' (by decide)
  have hsp := all_digits_ne hall ' ' (by decide)
  have hcm := all_digits_ne hall ',' (by decide)
  have hk : 'k' ∉ ds ++ " follower".data := by
    intro hm
    rcases List.mem_append.mp hm with h | h
    · exact not_mem_of_digits hall 'k' (by decide) h
    · revert h; decide
  have hK : 'K' ∉ ds ++ " follower".data := by
    intro hm
    rcases List.mem_append.mp hm with h | h
    · exact not_mem_of_digits hall 'K' (by decide) h
    · revert h; decide
  have g1 : replaceFirstL "followers".data [] " follower".data = " follower".data := by decide
  have g2 : replaceFirstL "follower".data [] " follower".data = [' '] := by decide
  have e3 : replaceFirstL [' '] [] [' '] = [] := by decide
  have e4 : replaceFirstL [','] ([] : List Char) [] = [] := by decide
  simp only [followersClean, dataOfMk]
  rw [replaceKL_no_k _ _ hk hK,
    replaceFirstL_in_tail "followers".data [] ds " follower".data 'f' (by decide) hf, g1,
    replaceFirstL_in_tail "follower".data [] ds " follower".data 'f' (by decide) hf, g2,
    replaceFirstL_in_tail [' '] [] ds [' '] ' ' (by decide) hsp, e3,
    replaceFirstL_in_tail [','] [] ds [] ',' (by decide) hcm, e4,
    List.append_nil]
  exact castNatL_of_digits hne hall hlt

theorem followersClean_comma (ds1 ds2 : List Char) (h1 : ds1 ≠ [])
    (ha1 : ds1.all Char.isDigit = true) (ha2 : ds2.all Char.isDigit = true)
    (hlt : digitsVal (ds1 ++ ds2) < 2147483648) :
    followersClean (String.mk (ds1 ++ ',' :: (ds2 ++ " followers".data)))
      = some (digitsVal (ds1 ++ ds2)) := by
  have hf1 := all_digits_ne ha1 'f' (by decide)
  have hf2 := all_digits_ne ha2 'f' (by decide)
  have hsp1 := all_digits_ne ha1 ' ' (by decide)
  have hsp2 := all_digits_ne ha2 ' ' (by decide)
  have hcm1 := all_digits_ne ha1 ',' (by decide)
  have hk : 'k' ∉ ds1 ++ ',' :: (ds2 ++ " followers".data) := by
    intro hm
    rcases List.mem_append.mp hm with h | h
    · exact not_mem_of_digits ha1 'k' (by decide) h
    · rcases List.mem_cons.mp h with h | h
      · exact absurd h (by decide)
      · rcases List.mem_append.mp h with h | h
        · exact not_mem_of_digits ha2 'k' (by decide) h
        · revert h; decide
  have hK : 'K' ∉ ds1 ++ ',' :: (ds2 ++ " followers".data) := by
    intro hm
    rcases List.mem_append.mp hm with h | h
    · exact not_mem_of_digits ha1 'K' (by decide) h
    · rcases List.mem_cons.mp h with h | h
      · exact absurd h (by decide)
      · rcases List.mem_append.mp h with h | h
        · exact not_mem_of_digits ha2 'K' (by decide) h
        · revert h; decide
  have g1 : replaceFirstL "followers".data [] " followers".data = [' '] := by decide
  have g2 : replaceFirstL "follower".data [] [' '] = [' '] := by decide
  have e3 : replaceFirstL [' '] [] [' '] = [] := by decide
  have hcat : (ds1 ++ ds2).all Char.isDigit = true := by
    simp only [List.all_append, ha1, ha2, Bool.and_self]
  simp only [followersClean, dataOfMk]
  rw [replaceKL_no_k _ _ hk hK,
    replaceFirstL_in_tail "followers".data [] ds1 (',' :: (ds2 ++ " followers".data)) 'f'
      (by decide) hf1,
    replaceFirstL_cons_ne "followers".data [] 'f' (by decide) ',' (ds2 ++ " followers".data)
      (by decide),
    replaceFirstL_in_tail "followers".data [] ds2 " followers".data 'f' (by decide) hf2, g1,
    replaceFirstL_in_tail "follower".data [] ds1 (',' :: (ds2 ++ [' '])) 'f' (by decide) hf1,
    replaceFirstL_cons_ne "follower".data [] 'f' (by decide) ',' (ds2 ++ [' ']) (by decide),
    replaceFirstL_in_tail "follower".data [] ds2 [' '] 'f' (by decide) hf2, g2,
    replaceFirstL_in_tail [' '] [] ds1 (',' :: (ds2 ++ [' '])) ' ' (by decide) hsp1,
    replaceFirstL_cons_ne [' '] [] ' ' (by decide) ',' (ds2 ++ [' ']) (by decide),
    replaceFirstL_in_tail [' '] [] ds2 [' '] ' ' (by decide) hsp2, e3,
    replaceFirstL_in_tail [','] [] ds1 (',' :: (ds2 ++ [])) ',' (by decide) hcm1,
    replaceFirstL_singleton_match ',' [] (ds2 ++ []),
    List.append_nil, List.nil_append]
  exact castNatL_of_digits (by simp [h1]) hcat hlt

/-- Rows of the specification's §8 scenario after cleaning, used as a
concrete aggregation input. -/
def sampleRows : List CleanedRow :=
  [{ name := "Alice", reviewsCount := 5, followersCount := 1200, rating := some 5,
     content := "Loved the pacing." },
   { name := "Bob", reviewsCount := 0, followersCount := 3, rating := none,
     content := "Characters felt flat." }]

/-! ### Claims -/

/-- Claim C1, counterexample: the claim's otherwise-branch says the
words and ALL spaces and commas are stripped before the cast; the
source replaces only the first occurrence of each, so
`1,234,567 followers` (two commas) fails the strict cast — the whole
normalization aborts — while the spec-worded derivation yields
1234567. -/
theorem c1_followers_cex :
    followersClean "1,234,567 followers" = none ∧
    followersCleanSpec "1,234,567 followers" = some 1234567 := by decide

/-- Claim C1 as amended: `followersCount` derives from
`followersCountRaw` by first replacing a `<number>[kK]<spaces>followers`
match by the number times 1000 (so `1.5k followers` yields 1500), and
otherwise stripping only the FIRST occurrence each of `followers`,
`follower`, a space, and a comma before the integer cast: every
`<digits> followers`, `<digits> follower` and `<digits>,<digits>
followers` form yields its digits' value (`250 followers` → 250,
`1 follower` → 1, `1,234 followers` → 1234), while `1,234,567
followers` (a second comma) fails the cast. -/
theorem c1_followers_amended :
    (∀ ds : List Char, ds ≠ [] → ds.all Char.isDigit = true →
      digitsVal ds < 2147483648 →
      followersClean (String.mk (ds ++ " followers".data)) = some (digitsVal ds) ∧
      followersClean (String.mk (ds ++ " follower".data)) = some (digitsVal ds)) ∧
    (∀ ds1 ds2 : List Char, ds1 ≠ [] → ds1.all Char.isDigit = true →
      ds2.all Char.isDigit = true → digitsVal (ds1 ++ ds2) < 2147483648 →
      followersClean (String.mk (ds1 ++ ',' :: (ds2 ++ " followers".data)))
        = some (digitsVal (ds1 ++ ds2))) ∧
    followersClean "1.5k followers" = some 1500 ∧
    followersClean "250 followers" = some 250 ∧
    followersClean "1 follower" = some 1 ∧
    followersClean "1,234 followers" = some 1234 ∧
    followersClean "1,234,567 followers" = none := by
  refine ⟨fun ds h1 h2 h3 =>
      ⟨followersClean_plain_fs ds h1 h2 h3, followersClean_plain_f ds h1 h2 h3⟩,
    fun ds1 ds2 h1 h2 h3 h4 => followersClean_comma ds1 ds2 h1 h2 h3 h4,
    by decide, by decide, by decide, by decide, by decide⟩

/-- Claim C1 witness: the general parts of the amended claim applied at
concrete digit strings. -/
theorem c1_followers_amended_check :
    followersClean (String.mk (['9', '8'] ++ " followers".data))
      = some (digitsVal ['9', '8']) ∧
    followersClean (String.mk (['3'] ++ ',' :: (['2', '5', '0'] ++ " followers".data)))
      = some (digitsVal (['3'] ++ ['2', '5', '0'])) :=
  ⟨(c1_followers_amended.1 ['9', '8'] (by decide) (by decide) (by decide)).1,
    c1_followers_amended.2.1 ['3'] ['2', '5', '0'] (by decide) (by decide) (by decide)
      (by decide)⟩

/-- Claim C2, counterexample: the source classifies each span through
an `if`/`elif` chain, so for the span text `books reviews` (which
matches both `books` and `reviews`) only the first matching branch
assigns: the reviews field keeps its default instead of reflecting the
span, while the spec-worded check-all-four classifier assigns it. -/
theorem c2_span_cex :
    (classifySpans ["books reviews"]).reviewsAmount = "Not Found" ∧
    (classifySpansSpec ["books reviews"]).reviewsAmount = "books reviews" ∧
    (classifySpans ["books reviews"]).books = some "books reviews" := by decide

/-- Claim C2 as amended: each span is tested against `books`,
`reviews`, `followers`, `Author` in that order and the FIRST matching
branch wins; once a pattern matches, no later pattern is tested for
that span.  Stated as the four exhaustive first-match cases: whichever
pattern is the first (in chain order) to match an arbitrary span —
regardless of which later patterns the span also matches — exactly
that category's field is set to the span text and every other field is
left unchanged. -/
theorem c2_span_first_match :
    (∀ (acc : ProfileMeta) (t : String), containsStr t "books" = true →
      (classifySpan acc t).books = some t ∧
      (classifySpan acc t).reviewsAmount = acc.reviewsAmount ∧
      (classifySpan acc t).followersAmount = acc.followersAmount ∧
      (classifySpan acc t).checkAuthor = acc.checkAuthor) ∧
    (∀ (acc : ProfileMeta) (t : String), containsStr t "books" = false →
      containsStr t "reviews" = true →
      (classifySpan acc t).reviewsAmount = t ∧
      (classifySpan acc t).books = acc.books ∧
      (classifySpan acc t).followersAmount = acc.followersAmount ∧
      (classifySpan acc t).checkAuthor = acc.checkAuthor) ∧
    (∀ (acc : ProfileMeta) (t : String), containsStr t "books" = false →
      containsStr t "reviews" = false → containsStr t "followers" = true →
      (classifySpan acc t).followersAmount = t ∧
      (classifySpan acc t).books = acc.books ∧
      (classifySpan acc t).reviewsAmount = acc.reviewsAmount ∧
      (classifySpan acc t).checkAuthor = acc.checkAuthor) ∧
    (∀ (acc : ProfileMeta) (t : String), containsStr t "books" = false →
      containsStr t "reviews" = false → containsStr t "followers" = false →
      containsStr t "Author" = true →
      (classifySpan acc t).checkAuthor = some t ∧
      (classifySpan acc t).books = acc.books ∧
      (classifySpan acc t).reviewsAmount = acc.reviewsAmount ∧
      (classifySpan acc t).followersAmount = acc.followersAmount) := by
  refine ⟨fun acc t h1 => ?_, fun acc t h1 h2 => ?_, fun acc t h1 h2 h3 => ?_,
    fun acc t h1 h2 h3 h4 => ?_⟩ <;>
    refine ⟨?_, ?_, ?_, ?_⟩ <;>
    simp [classifySpan, h1]
  all_goals simp [h2]
  all_goals simp [h3]
  all_goals simp [h4]

/-- Claim C2 witness: the amended claim's cases at multi-matching
spans over the initial loop state — `books reviews` (books wins over
reviews), `5 reviews by followers` (reviews wins over followers), and
`followers of the Author` (followers wins over Author). -/
theorem c2_span_first_match_check :
    ((classifySpan initMeta "books reviews").books = some "books reviews" ∧
      (classifySpan initMeta "books reviews").reviewsAmount = initMeta.reviewsAmount ∧
      (classifySpan initMeta "books reviews").followersAmount = initMeta.followersAmount ∧
      (classifySpan initMeta "books reviews").checkAuthor = initMeta.checkAuthor) ∧
    ((classifySpan initMeta "5 reviews by followers").reviewsAmount
        = "5 reviews by followers" ∧
      (classifySpan initMeta "5 reviews by followers").books = initMeta.books ∧
      (classifySpan initMeta "5 reviews by followers").followersAmount
        = initMeta.followersAmount ∧
      (classifySpan initMeta "5 reviews by followers").checkAuthor
        = initMeta.checkAuthor) ∧
    ((classifySpan initMeta "followers of the Author").followersAmount
        = "followers of the Author" ∧
      (classifySpan initMeta "followers of the Author").books = initMeta.books ∧
      (classifySpan initMeta "followers of the Author").reviewsAmount
        = initMeta.reviewsAmount ∧
      (classifySpan initMeta "followers of the Author").checkAuthor
        = initMeta.checkAuthor) :=
  ⟨c2_span_first_match.1 initMeta "books reviews" (by decide),
    c2_span_first_match.2.1 initMeta "5 reviews by followers" (by decide) (by decide),
    c2_span_first_match.2.2.1 initMeta "followers of the Author" (by decide) (by decide)
      (by decide)⟩

/-- Claim C3: the `Not Found` sentinel is recovered for the reviews
column (it maps to 0) but not for the followers column, whose strict
cast fails; any row carrying the followers sentinel aborts the whole
normalization step with the `NumericParseError` of the specification's
taxonomy. -/
theorem c3_not_found_asymmetry :
    followersClean "Not Found" = none ∧
    reviewsClean "Not Found" = some 0 ∧
    ∀ (rs : List RawReview) (r : RawReview), r ∈ rs →
      r.followersAmount = "Not Found" →
      review_cleaning rs = Except.error PErr.numericParse := by
  refine ⟨by decide, by decide, ?_⟩
  intro rs r hmem hfa
  have hf : followersClean r.followersAmount = none := by rw [hfa]; decide
  simp [review_cleaning, cleanRows_none_of_mem hmem hf]

/-- Claim C3 witness: a one-row frame whose followers field carries the
sentinel aborts the normalization. -/
theorem c3_not_found_asymmetry_check :
    review_cleaning [rawNF] = Except.error PErr.numericParse :=
  c3_not_found_asymmetry.2.2 [rawNF] rawNF (by decide) rfl

/-- Claim C4, counterexample: the claim says ALL spaces and commas are
stripped before the cast; the source replaces only the first occurrence
of each, so `1,234,567 reviews` (two commas) fails the strict cast
while the spec-worded derivation yields 1234567. -/
theorem c4_reviews_cex :
    reviewsClean "1,234,567 reviews" = none ∧
    reviewsCleanSpec "1,234,567 reviews" = some 1234567 := by decide

/-- Claim C4 as amended: `reviewsCount` derives from `reviewsCountRaw`
by stripping the first occurrence of `reviews`, then of `review`, then
one space and one comma, then casting; `Not Found` maps to 0; every
`<digits> reviews`, `<digits> review` and `<digits>,<digits> reviews`
form yields its digits' value (`12 reviews` → 12, `1 review` → 1,
`1,234 reviews` → 1234), while `1,234,567 reviews` (a second comma)
fails the cast and aborts normalization. -/
theorem c4_reviews_amended :
    (∀ ds : List Char, ds ≠ [] → ds.all Char.isDigit = true →
      digitsVal ds < 2147483648 →
      reviewsClean (String.mk (ds ++ " reviews".data)) = some (digitsVal ds) ∧
      reviewsClean (String.mk (ds ++ " review".data)) = some (digitsVal ds)) ∧
    (∀ ds1 ds2 : List Char, ds1 ≠ [] → ds1.all Char.isDigit = true →
      ds2.all Char.isDigit = true → digitsVal (ds1 ++ ds2) < 2147483648 →
      reviewsClean (String.mk (ds1 ++ ',' :: (ds2 ++ " reviews".data)))
        = some (digitsVal (ds1 ++ ds2))) ∧
    reviewsClean "Not Found" = some 0 ∧
    reviewsClean "12 reviews" = some 12 ∧
    reviewsClean "1 review" = some 1 ∧
    reviewsClean "1,234 reviews" = some 1234 ∧
    reviewsClean "1,234,567 reviews" = none := by
  refine ⟨fun ds h1 h2 h3 =>
      ⟨reviewsClean_plain_rs ds h1 h2 h3, reviewsClean_plain_r ds h1 h2 h3⟩,
    fun ds1 ds2 h1 h2 h3 h4 => reviewsClean_comma ds1 ds2 h1 h2 h3 h4,
    by decide, by decide, by decide, by decide, by decide⟩

/-- Claim C4 witness: the general parts of the amended claim applied at
concrete digit strings. -/
theorem c4_reviews_amended_check :
    reviewsClean (String.mk (['9', '8'] ++ " reviews".data))
      = some (digitsVal ['9', '8']) ∧
    reviewsClean (String.mk (['3'] ++ ',' :: (['2', '5', '0'] ++ " reviews".data)))
      = some (digitsVal (['3'] ++ ['2', '5', '0'])) :=
  ⟨(c4_reviews_amended.1 ['9', '8'] (by decide) (by decide) (by decide)).1,
    c4_reviews_amended.2.1 ['3'] ['2', '5', '0'] (by decide) (by decide) (by decide)
      (by decide)⟩

/-- Claim C5: whenever the shelf-status/rating-stars lookup fails (the
element chain yields nothing, covering both absence cases the bare
`except` catches), `ratingRaw` is the sentinel `No Rating Given`; the
sentinel extracts to a null rating in the cleaned row, and
`Rating 4 out of 5` extracts to 4. -/
theorem c5_rating_fallback :
    (∀ c : ReviewCard, c.shelfStatus.bind ShelfStatus.ratingStars = none →
      findRating c = "No Rating Given") ∧
    ratingClean "No Rating Given" = some none ∧
    ratingClean "Rating 4 out of 5" = some (some 4) ∧
    ∀ (r : RawReview) (row : CleanedRow), cleanRow r = some row →
      r.rating = "No Rating Given" → row.rating = none := by
  refine ⟨?_, by decide, by decide, ?_⟩
  · intro c hc
    cases hs : c.shelfStatus with
    | none => simp [findRating, hs]
    | some s =>
      rw [hs] at hc
      have hr : s.ratingStars = none := by simpa using hc
      simp [findRating, hs, hr]
  · intro r row hrow hr
    have hrt : ratingClean r.rating = some none := by rw [hr]; decide
    cases hrc : reviewsClean r.reviewsAmount with
    | none => simp [cleanRow, hrc] at hrow
    | some rc =>
      cases hfc : followersClean r.followersAmount with
      | none => simp [cleanRow, hrc, hfc] at hrow
      | some fc =>
        simp [cleanRow, hrc, hfc, hrt] at hrow
        subst hrow
        rfl

/-- Claim C5 witness: the fallback applied to the scenario card with no
shelf status, and the cleaned sentinel row. -/
theorem c5_rating_fallback_check :
    findRating cardBob = "No Rating Given" ∧
    (mkRaw 2 cardBob).rating = "No Rating Given" ∧
    ({ name := "Bob", reviewsCount := 0, followersCount := 3, rating := none,
       content := "Characters felt flat." } : CleanedRow).rating = none :=
  ⟨c5_rating_fallback.1 cardBob rfl, c5_rating_fallback.1 cardBob rfl,
    c5_rating_fallback.2.2.2 (mkRaw 2 cardBob) _ rfl rfl⟩

/-- Claim C6, counterexample: the source never inspects
`response.status_code` and never calls `raise_for_status`, so a
non-success response does not raise — the whole pipeline runs on the
body of a status-404 response and succeeds, where the claim requires a
`NetworkError` and no extraction. -/
theorem c6_fetch_cex :
    run_pipeline (FetchOutcome.response 404 samplePage)
      = Except.ok "Loved the pacing.\nCharacters felt flat." := rfl

/-- Claim C6 as amended: the fetcher fails (uncaught, propagating to
the caller, so nothing downstream runs) exactly when the request cannot
complete; a non-success HTTP status raises nothing — the status is
ignored and extraction runs on the returned body regardless of it. -/
theorem c6_fetch_amended :
    find_review FetchOutcome.fail = Except.error PErr.network ∧
    run_pipeline FetchOutcome.fail = Except.error PErr.network ∧
    ∀ (s1 s2 : Nat) (p : Page),
      find_review (FetchOutcome.response s1 p)
        = find_review (FetchOutcome.response s2 p) :=
  ⟨rfl, rfl, fun _ _ _ => rfl⟩

/-- Claim C6 witness: the status-independence instantiated at statuses
404 and 200 on the scenario page. -/
theorem c6_fetch_amended_check :
    find_review (FetchOutcome.response 404 samplePage)
      = find_review (FetchOutcome.response 200 samplePage) :=
  c6_fetch_amended.2.2 404 200 samplePage

/-- Claim C7: for a well-formed page whose second review-list container
holds the cards, the extractor succeeds and produces one record per
card whose index values are exactly the contiguous sequence 1..N in
iteration order, without duplicates. -/
theorem c7_index_contiguous (p : Page) (cards : List ReviewCard)
    (h : p.reviewLists[1]? = some cards) :
    extractPage p = Except.ok (p.title, p.author, extractReviews 1 cards) ∧
    (extractReviews 1 cards).length = cards.length ∧
    (extractReviews 1 cards).map RawReview.index = List.range' 1 cards.length ∧
    ((extractReviews 1 cards).map RawReview.index).Nodup := by
  refine ⟨by unfold extractPage; rw [h], extractReviews_length 1 cards,
    extractReviews_map_index 1 cards, ?_⟩
  rw [extractReviews_map_index]
  exact List.nodup_range' 1 cards.length

/-- Claim C7 witness: the scenario page with two cards in the second
container. -/
theorem c7_index_contiguous_check :
    extractPage samplePage
      = Except.ok ("Book", "Author A", extractReviews 1 [cardAlice, cardBob]) ∧
    (extractReviews 1 [cardAlice, cardBob]).length = 2 ∧
    (extractReviews 1 [cardAlice, cardBob]).map RawReview.index = List.range' 1 2 ∧
    ((extractReviews 1 [cardAlice, cardBob]).map RawReview.index).Nodup :=
  c7_index_contiguous samplePage [cardAlice, cardBob] rfl

/-- Claim C8: for a non-empty row list whose contents hold no newline,
splitting the aggregator's output on the newline character reproduces
exactly the ordered content column; the empty row list aggregates to
the empty string. -/
theorem c8_aggregate_roundtrip :
    (∀ rows : List CleanedRow, rows ≠ [] →
      (∀ r ∈ rows, '\n' ∉ r.content.data) →
      splitNl (extract_content rows) = rows.map CleanedRow.content) ∧
    extract_content [] = "" := by
  refine ⟨?_, rfl⟩
  intro rows hne h
  have hmapne : rows.map CleanedRow.content ≠ [] := by
    intro hh
    exact hne (List.map_eq_nil_iff.mp hh)
  have hno : ∀ s ∈ rows.map CleanedRow.content, '\n' ∉ s.data := by
    intro s hs
    rcases List.mem_map.mp hs with ⟨r, hr, rfl⟩
    exact h r hr
  exact splitNl_joinNl (rows.map CleanedRow.content) hmapne hno

/-- Claim C8 witness: the §8 scenario rows round-trip. -/
theorem c8_aggregate_roundtrip_check :
    splitNl (extract_content sampleRows)
      = ["Loved the pacing.", "Characters felt flat."] :=
  (c8_aggregate_roundtrip.1 sampleRows (by decide) (by decide)).trans (by decide)

/-- Claim C9: a page with fewer than two review-list containers makes
the extractor fail with the review-list extraction error, and the whole
pipeline short-circuits with that same error, so neither the
normalizer, the aggregator, nor the summarizer ever receives input. -/
theorem c9_missing_review_list (s : Nat) (p : Page) (h : p.reviewLists.length < 2) :
    find_review (FetchOutcome.response s p) = Except.error PErr.extractionReviewList ∧
    run_pipeline (FetchOutcome.response s p) = Except.error PErr.extractionReviewList := by
  have hg : p.reviewLists[1]? = none := List.getElem?_eq_none (by omega)
  have hf : find_review (FetchOutcome.response s p) = Except.error PErr.extractionReviewList := by
    show extractPage p = Except.error PErr.extractionReviewList
    unfold extractPage
    rw [hg]
  refine ⟨hf, ?_⟩
  unfold run_pipeline
  rw [hf]
  rfl

/-- Claim C9 witness: the one-container page. -/
theorem c9_missing_review_list_check :
    find_review (FetchOutcome.response 200 onlyOneListPage)
      = Except.error PErr.extractionReviewList ∧
    run_pipeline (FetchOutcome.response 200 onlyOneListPage)
      = Except.error PErr.extractionReviewList :=
  c9_missing_review_list 200 onlyOneListPage (by decide)

/-- Claim C10: a span containing none of the four tested substrings
(in particular the singular-only texts `1 book`, `1 review`,
`1 follower`, which miss the plural patterns) assigns nothing, so every
profile-meta field keeps its default. -/
theorem c10_singular_defaults :
    (∀ (acc : ProfileMeta) (t : String), containsStr t "books" = false →
      containsStr t "reviews" = false → containsStr t "followers" = false →
      containsStr t "Author" = false → classifySpan acc t = acc) ∧
    classifySpans ["1 book"] = initMeta ∧
    classifySpans ["1 review"] = initMeta ∧
    classifySpans ["1 follower"] = initMeta := by
  refine ⟨?_, by decide, by decide, by decide⟩
  intro acc t h1 h2 h3 h4
  simp [classifySpan, h1, h2, h3, h4]

/-- Claim C10 witness: the no-op classification at the singular span
`1 review`. -/
theorem c10_singular_defaults_check :
    classifySpan initMeta "1 review" = initMeta :=
  c10_singular_defaults.1 initMeta "1 review" (by decide) (by decide) (by decide)
    (by decide)

end GoodreadsSummariser
